import Mathlib

/-
Verification of the plot-accumulation / curve-evaluation / fitting
orchestration logic of `pybindingcurve/pybindingcurve.py` (class
`BindingCurve`), as a shallow embedding.

Modelling conventions:
* Python floats are modelled as `Option ℚ`, with `none` standing for NaN
  (float rounding is outside the numeric model).
* Python dicts are association lists `List (String × PVal)` in insertion
  order; `dictSet` updates an existing key in place and appends a new key
  at the end, matching dict assignment.
* Stateful code is translated to explicit state passing: a method that
  mutates `self` returns the updated state alongside its result.
* Attributes of `BindingCurve` are declared at class level in the source.
  Scalar attributes are only ever rebound through `self.<name> = ...`,
  which creates a per-instance binding; they are modelled by an `InstDict`
  of optional per-instance overrides over the class defaults.  The
  `curves` list, by contrast, is only ever mutated in place
  (`self.curves.append(...)`), so the single class-level list object is
  shared by all instances; it is modelled as a separate `cls_curves`
  value threaded through `add_curve` and read by every instance.
* External collaborators (the equation systems, lmfit, matplotlib) are
  modelled abstractly: a `BindingSystem` is a record of query functions,
  the lmfit minimizer is a function from initial parameters to the list
  of trial evaluations it performs plus its converged result, and the
  matplotlib axes object is a record of the drawing commands it received.
-/

set_option maxRecDepth 4000

namespace PyBindingCurve

/-- A Python float: `none` is NaN, `some q` a (finite) numeric value. -/
abbrev NumQ := Option ℚ

/-- np.nanmax: maximum ignoring NaN entries; NaN when no entry is numeric. -/
def nanmax (l : List NumQ) : NumQ :=
  (l.filterMap id).foldl
    (fun acc v =>
      match acc with
      | none => some v
      | some a => some (max a v)) none

/-- np.nanmin: minimum ignoring NaN entries; NaN when no entry is numeric. -/
def nanmin (l : List NumQ) : NumQ :=
  (l.filterMap id).foldl
    (fun acc v =>
      match acc with
      | none => some v
      | some a => some (min a v)) none

/-- An lmfit `Parameter` object: its current value, lower/upper bounds
(`none` standing for minus/plus infinity) and nullable standard error. -/
structure LmParam where
  value : NumQ
  vmin : Option ℚ
  vmax : Option ℚ
  stderr : Option NumQ
deriving DecidableEq, Repr

/-- A Python value stored in a parameter dictionary: a scalar float, a
sequence (`np.ndarray` or `list`, both sequence-typed for the changing
parameter scan), or an lmfit `Parameter` object. -/
inductive PVal where
  | num (v : NumQ)
  | arr (vs : List NumQ)
  | lmpar (p : LmParam)
deriving DecidableEq, Repr

/-- True exactly for the values `_find_changing_parameters` counts as
changing: `type(v) == np.ndarray or type(v) == list`. -/
def PVal.isSeq : PVal → Bool
  | .arr _ => true
  | _ => false

/-- A Python dict of named parameters, in insertion order. -/
abbrev Params := List (String × PVal)

/-- Dict lookup `d[k]` (first binding of the key). -/
def dictGet? (d : Params) (k : String) : Option PVal :=
  (d.find? (fun kv => kv.1 == k)).map (fun kv => kv.2)

/-- Dict key list `d.keys()`. -/
def dictKeysL (d : Params) : List String := d.map (fun kv => kv.1)

/-- Dict assignment `d[k] = v`: in-place update of an existing key
(replacing its binding, keeping its position), else append at the end
(Python dicts keep insertion order and have unique keys). -/
def dictSet : Params → String → PVal → Params
  | [], k, v => [(k, v)]
  | kv :: rest, k, v =>
    if kv.1 = k then (k, v) :: rest else kv :: dictSet rest k v

/-- The sequence stored under key `k` (used for `parameters[changing[0]]`,
where the key is known to hold a sequence value). -/
def seqValues (d : Params) (k : String) : List NumQ :=
  match dictGet? d k with
  | some (.arr vs) => vs
  | _ => []

/-- An equation system (external capability): `analytical` flag, required
argument names, and the two query entry points used by the source —
`query(parameters)` for analytical systems and `query(parameters, readout)`
for kinetic/numeric ones. -/
structure BindingSystem where
  analytical : Bool
  arguments : List String
  queryA : Params → List NumQ
  queryR : Params → Option String → List NumQ

/-- A binding curve (`_Curve`): x and y coordinates plus a series name
(the constructor call in `add_curve` leaves the name at its default `""`). -/
structure _Curve where
  xcoords : List NumQ
  ycoords : List NumQ
  name : String
deriving DecidableEq, Repr

/-- One `axes.plot(x, y, ..., label=curve_name, ...)` call recorded on the
axes (the colour/linewidth styling is not modelled). -/
structure PlotTrace where
  xs : List NumQ
  ys : List NumQ
  label : String
deriving DecidableEq, Repr

/-- The matplotlib axes object: recorded traces and current axis limits
(`set_ylim`, `set_xlim`). -/
structure Axes where
  traces : List PlotTrace
  ylim : NumQ × NumQ
  xlim : NumQ × NumQ
deriving DecidableEq, Repr

/-- The per-instance attribute dictionary of a `BindingCurve` object.
`none` means the attribute is absent from the instance and lookup falls
back to the class-level default (`fig = None`, bounds `0.0`, counter `0`,
`_last_known_changing_parameter = "X"`, `_last_known_readout = "Y"`).
`figaxes` bundles `fig`/`axes`, which are always assigned together. -/
structure InstDict where
  figaxes : Option Axes
  min_x_axis : Option NumQ
  max_x_axis : Option NumQ
  min_y_axis : Option NumQ
  max_y_axis : Option NumQ
  num_added_traces : Option Nat
  last_known_changing_parameter : Option String
  last_known_readout : Option (Option String)
deriving DecidableEq, Repr

/-- A freshly constructed instance: empty instance dictionary. -/
def freshInstance : InstDict :=
  ⟨none, none, none, none, none, none, none, none⟩

/-- Attribute read `self._min_x_axis` (class default `0.0`). -/
def InstDict.v_min_x_axis (d : InstDict) : NumQ := d.min_x_axis.getD (some 0)

/-- Attribute read `self._max_x_axis` (class default `0.0`). -/
def InstDict.v_max_x_axis (d : InstDict) : NumQ := d.max_x_axis.getD (some 0)

/-- Attribute read `self._min_y_axis` (class default `0.0`). -/
def InstDict.v_min_y_axis (d : InstDict) : NumQ := d.min_y_axis.getD (some 0)

/-- Attribute read `self._max_y_axis` (class default `0.0`). -/
def InstDict.v_max_y_axis (d : InstDict) : NumQ := d.max_y_axis.getD (some 0)

/-- Attribute read `self._num_added_traces` (class default `0`). -/
def InstDict.v_num_added_traces (d : InstDict) : Nat :=
  d.num_added_traces.getD 0

/-- Attribute read `self._last_known_changing_parameter` (class default `"X"`). -/
def InstDict.v_last_changing (d : InstDict) : String :=
  d.last_known_changing_parameter.getD "X"

/-- Attribute read `self._last_known_readout` (class default `"Y"`). -/
def InstDict.v_last_readout (d : InstDict) : Option String :=
  d.last_known_readout.getD (some "Y")

/-- Attribute read `self.curves`: `curves` is a class attribute, no
instance ever rebinds it, and `self.curves.append(...)` mutates the one
class-level list in place, so every instance observes the same list. -/
def curves_view (cls_curves : List _Curve) (_self : InstDict) : List _Curve :=
  cls_curves

/-- The effective `BindingCurve.query` method.  The source defines `query`
twice; the second definition (taking only `parameters`) shadows the first,
so the surviving method has no readout argument: for an analytical system
it returns `self.system.query(parameters)`, for a non-analytical system it
prints "Must supply a readout" and returns `None`. -/
inductive QueryOutcome where
  | ok (ys : List NumQ)
  | missingReadout
deriving DecidableEq, Repr

/-- `BindingCurve.query(self, parameters)` (the surviving definition). -/
def query (sys : BindingSystem) (parameters : Params) : QueryOutcome :=
  if sys.analytical then .ok (sys.queryA parameters) else .missingReadout

/-- `BindingCurve._find_changing_parameters`: collect the keys holding
sequence values; return `None` when there are none, else the list. -/
def _find_changing_parameters (params : Params) : Option (List String) :=
  let changing_list := (params.filter (fun kv => kv.2.isSeq)).map (fun kv => kv.1)
  if changing_list.length = 0 then none else some changing_list

/-- `BindingCurve._initialize_plot`: create `fig`/`axes` if absent (the
subplots call, grid, and `set_ylim(0, 1)`); a second call is a no-op. -/
def init_plot (d : InstDict) : InstDict :=
  match d.figaxes with
  | none => { d with figaxes := some ⟨[], (some 0, some 1), (some 0, some 1)⟩ }
  | some _ => d

/-- Outcome of an `add_curve` call.  Every path of the source returns
`None`; the constructors record which path ran, including the crashes the
source can raise. -/
inductive AddCurveResult where
  | ok
  | noSystem
  | typeErrorLenNone
  | invalidSweep
  | indexErrorEmptyX
  | valueErrorEmptyY
deriving DecidableEq, Repr

/-- The y-value dispatch inside `add_curve` (source lines 130-133): a
non-analytical system is queried as `query(parameters, readout)`, an
analytical one as `query(parameters)`. -/
def add_curve_yvalues (sys : BindingSystem) (parameters : Params)
    (readout : Option String) : List NumQ :=
  if !sys.analytical then sys.queryR parameters readout
  else sys.queryA parameters

/-- `BindingCurve.add_curve(self, parameters, readout, curve_name=None)`.
Takes the (possibly absent) configured system, the shared class-level
curve list, and the instance dictionary; returns the outcome together
with the updated shared list and instance dictionary.  The translation
follows the source line by line, including the two crash points: with
zero changing parameters `_find_changing_parameters` returns `None` and
`len(None)` raises `TypeError`; with an empty swept sequence `x[-1]`
raises `IndexError` (and an empty query result makes `np.nanmin` raise
`ValueError`), both after part of the state has already been mutated. -/
def add_curve (system : Option BindingSystem) (cls_curves : List _Curve)
    (self : InstDict) (parameters : Params) (readout : Option String)
    (curve_name : Option String) :
    AddCurveResult × List _Curve × InstDict :=
  match system with
  | none => (.noSystem, cls_curves, self)
  | some sys =>
    let self := init_plot self
    match _find_changing_parameters parameters with
    | none => (.typeErrorLenNone, cls_curves, self)
    | some changing_parameters =>
      if !(changing_parameters.length = 1) then
        (.invalidSweep, cls_curves, self)
      else
        let y_values := add_curve_yvalues sys parameters readout
        let ch := changing_parameters.headD ""
        let xs := seqValues parameters ch
        let cls_curves := cls_curves ++ [⟨xs, y_values, ""⟩]
        let self := { self with
          last_known_changing_parameter := some ch,
          last_known_readout := some readout,
          num_added_traces := some (self.v_num_added_traces + 1) }
        let label := curve_name.getD ("Curve " ++ toString self.v_num_added_traces)
        let self :=
          match self.figaxes with
          | some ax =>
            { self with figaxes := some { ax with traces := ax.traces ++ [⟨xs, y_values, label⟩] } }
          | none => self
        if xs.isEmpty then (.indexErrorEmptyX, cls_curves, self)
        else
          let self := { self with
            max_x_axis := some (nanmax [self.v_max_x_axis, xs.getLastD none]),
            min_x_axis := some (nanmin [self.v_min_x_axis, xs.headD none]) }
          if y_values.isEmpty then (.valueErrorEmptyY, cls_curves, self)
          else
            let self := { self with
              min_y_axis := some (nanmin y_values),
              max_y_axis := some (nanmax [self.v_max_y_axis, nanmax y_values]) }
            (.ok, cls_curves, self)

/-- The recognised keyword arguments of `show_plot` that feed the modelled
behaviour (title, axis labels, explicit bound overrides, log flags, legend
visibility; style records and export file paths are rendering details that
are not modelled). -/
structure ShowOpts where
  title : String
  xlabel : Option String
  ylabel : Option String
  min_x : Option ℚ
  max_x : Option ℚ
  min_y : Option ℚ
  max_y : Option ℚ
  log_x_axis : Bool
  log_y_axis : Bool
  show_legend : Bool
deriving DecidableEq, Repr

/-- The labelling/scaling configuration `show_plot` hands to the renderer. -/
structure RenderedPlot where
  log_x : Bool
  log_y : Bool
  xlabel : String
  ylabel : String
  title : String
  legend : Bool
deriving DecidableEq, Repr

/-- Outcome of `show_plot`: a rendered plot, or one of the two attribute
crashes the source can raise (`self.axes` is `None` because no curve or
point was ever added, or `self._last_known_readout` is `None` so
`.upper()` fails while building the default y label). -/
inductive ShowPlotResult where
  | shown (r : RenderedPlot)
  | attributeErrorNoAxes
  | attributeErrorNoReadout
deriving DecidableEq, Repr

/-- Scalar multiplication on a possibly-NaN float (NaN propagates). -/
def qscale (a : NumQ) (c : ℚ) : NumQ := a.map (fun v => v * c)

/-- The upper y limit currently set on the instance's axes, when the axes
exist. -/
def axesUpperY (d : InstDict) : Option NumQ :=
  d.figaxes.map (fun ax => ax.ylim.2)

/-- `BindingCurve.show_plot`.  In source order: overwrite the stored axis
bounds with any explicit `min_x`/`max_x`/`min_y`/`max_y` arguments, then
`set_ylim` — with upper limit `self._max_y_axis * 1.1` when no `max_y`
was given and exactly `self._max_y_axis` (i.e. the given `max_y`)
otherwise — then `set_xlim`, then derive the axis labels (defaults from
the last swept parameter and last readout, upper-cased in brackets). -/
def show_plot (self : InstDict) (opts : ShowOpts) : ShowPlotResult × InstDict :=
  let self :=
    match opts.min_x with
    | some v => { self with min_x_axis := some (some v) }
    | none => self
  let self :=
    match opts.max_x with
    | some v => { self with max_x_axis := some (some v) }
    | none => self
  let self :=
    match opts.min_y with
    | some v => { self with min_y_axis := some (some v) }
    | none => self
  let self :=
    match opts.max_y with
    | some v => { self with max_y_axis := some (some v) }
    | none => self
  match self.figaxes with
  | none => (.attributeErrorNoAxes, self)
  | some ax =>
    let ylim :=
      match opts.max_y with
      | none => (self.v_min_y_axis, qscale self.v_max_y_axis (11 / 10))
      | some _ => (self.v_min_y_axis, self.v_max_y_axis)
    let ax := { ax with ylim := ylim }
    let ax := { ax with xlim := (self.v_min_x_axis, self.v_max_x_axis) }
    let self := { self with figaxes := some ax }
    let xlabel :=
      match opts.xlabel with
      | none => "[" ++ self.v_last_changing.toUpper ++ "]"
      | some s => s
    let res : ShowPlotResult :=
      match opts.ylabel with
      | some s =>
        .shown ⟨opts.log_x_axis, opts.log_y_axis, xlabel, s, opts.title, opts.show_legend⟩
      | none =>
        match self.v_last_readout with
        | some rr =>
          .shown ⟨opts.log_x_axis, opts.log_y_axis, xlabel,
            "[" ++ rr.toUpper ++ "]", opts.title, opts.show_legend⟩
        | none => .attributeErrorNoReadout
    (res, self)

/-- Failure modes of `fit` before the minimizer is reached. -/
inductive FitError where
  | nothingToFit
  | missingParameters (names : List String)
deriving DecidableEq, Repr

/-- An lmfit `Parameters` collection: named parameters in registration
order. -/
abbrev LmParams := List (String × LmParam)

/-- The external nonlinear least-squares minimizer (lmfit), modelled as a
black box: given the registered initial parameters it performs a sequence
of residual evaluations (`trials`, the parameter values of each call, in
order) and returns the converged parameters with their standard errors
(`result.params`). -/
structure ExtMinimizer where
  run : LmParams → List LmParams × LmParams

/-- The overlay loop at the top of `_residual`:
`for value in params: system_parameters[value] = params[value]` — each
registered lmfit `Parameter` object is written into the dict under its
name. -/
def overlayTrial (system_parameters : Params) (params : LmParams) : Params :=
  params.foldl (fun d kp => dictSet d kp.1 (.lmpar kp.2)) system_parameters

/-- Elementwise subtraction of two float arrays (NaN propagates). -/
def listSub (a b : List NumQ) : List NumQ :=
  List.zipWith
    (fun x y =>
      match x, y with
      | some u, some v => some (u - v)
      | _, _ => none) a b

/-- `BindingCurve._residual(self, params, system_parameters, to_fit, y,
readout)`.  It writes the trial parameters into the `system_parameters`
dict it was handed (in-place mutation, modelled by returning the updated
dict as the second component), queries the system — with the readout
exactly when the system is non-analytical — and returns the elementwise
difference of the prediction and `y`.  The `to_fit` argument is received
but never read, as in the source. -/
def _residual (sys : BindingSystem) (params : LmParams)
    (system_parameters : Params) (to_fit : Params) (y : List NumQ)
    (readout : Option String) : List NumQ × Params :=
  let system_parameters := overlayTrial system_parameters params
  let pred :=
    if !sys.analytical then sys.queryR system_parameters readout
    else sys.queryA system_parameters
  (listSub pred y, system_parameters)

/-- Code-point lexicographic strict order on character lists (the order
Python's `sorted` uses on strings), as a computable comparison. -/
def strLtB : List Char → List Char → Bool
  | [], [] => false
  | [], _ :: _ => true
  | _ :: _, [] => false
  | a :: as, b :: bs =>
    if a < b then true
    else if b < a then false
    else strLtB as bs

/-- Code-point lexicographic `≤` on strings, as a computable comparison. -/
def pyStrLe (a b : String) : Bool := !(strLtB b.toList a.toList)

theorem strLtB_iff_lex :
    ∀ (x y : List Char), strLtB x y = true ↔ List.Lex (· < ·) x y := by
  intro x y
  induction x generalizing y with
  | nil =>
    cases y with
    | nil => exact ⟨fun h => by simp [strLtB] at h, fun h => by cases h⟩
    | cons b bs => exact ⟨fun _ => List.Lex.nil, fun _ => rfl⟩
  | cons a as ih =>
    cases y with
    | nil => exact ⟨fun h => by simp [strLtB] at h, fun h => by cases h⟩
    | cons b bs =>
      constructor
      · intro h
        by_cases hab : a < b
        · exact List.Lex.rel hab
        · by_cases hba : b < a
          · simp [strLtB, hab, hba] at h
          · have heq : a = b := le_antisymm (le_of_not_lt hba) (le_of_not_lt hab)
            subst heq
            exact List.Lex.cons ((ih bs).mp (by simpa [strLtB, hab, hba] using h))
      · intro h
        cases h with
        | cons h1 => simp [strLtB, lt_irrefl, (ih bs).mpr h1]
        | rel h1 => simp [strLtB, h1]

theorem pyStrLe_iff_le (a b : String) : pyStrLe a b = true ↔ a ≤ b := by
  rw [pyStrLe, Bool.not_eq_true']
  constructor
  · intro h
    by_contra hc
    have hba : b < a := lt_of_not_le hc
    have h1 : strLtB b.toList a.toList = true :=
      (strLtB_iff_lex b.toList a.toList).mpr (String.lt_iff_toList_lt.mp hba)
    exact Bool.noConfusion (h1.symm.trans h)
  · intro h
    by_contra hc
    have h2 : strLtB b.toList a.toList = true := by
      cases hb : strLtB b.toList a.toList
      · exact absurd hb hc
      · rfl
    have hba : b < a :=
      String.lt_iff_toList_lt.mpr ((strLtB_iff_lex b.toList a.toList).mp h2)
    exact absurd h (not_le.mpr hba)

/-- The code-point order as a relation, for use with the sorting lemmas. -/
def pyStrLeP : String → String → Prop := fun a b => pyStrLe a b = true

instance : DecidableRel pyStrLeP := fun a b =>
  inferInstanceAs (Decidable (pyStrLe a b = true))

instance : IsTrans String pyStrLeP :=
  ⟨fun a b c h1 h2 =>
    (pyStrLe_iff_le a c).mpr
      (le_trans ((pyStrLe_iff_le a b).mp h1) ((pyStrLe_iff_le b c).mp h2))⟩

instance : IsTotal String pyStrLeP :=
  ⟨fun a b => by
    rcases le_total a b with h | h
    · exact Or.inl ((pyStrLe_iff_le a b).mpr h)
    · exact Or.inr ((pyStrLe_iff_le b a).mpr h)⟩

/-- The missing-argument computation of `fit` (source lines 277-278):
`sorted(list(set(system.arguments) - set([*copy] + [*to_fit])))`. -/
def fit_missing (sys : BindingSystem) (system_parameters_copy to_fit : Params) :
    List String :=
  List.insertionSort pyStrLeP
    ((sys.arguments.filter
      (fun a => decide (a ∉ dictKeysL system_parameters_copy ++ dictKeysL to_fit))).dedup)

/-- The numeric value lmfit extracts from an initial-guess entry of
`to_fit` (guesses are scalars; a sequence guess is outside the model). -/
def pvalNum : PVal → NumQ
  | .num v => v
  | .arr _ => none
  | .lmpar p => p.value

/-- The `lmfit.Parameters` registration loop of `fit` (source lines
286-294): one optimizable variable per `to_fit` entry, with the supplied
guess as initial value and the caller's `(min, max)` bounds when present,
else unbounded. -/
def fit_initParams (to_fit : Params) (bounds : List (String × (ℚ × ℚ))) :
    LmParams :=
  to_fit.map (fun kv =>
    let bp := (bounds.find? (fun b => b.1 == kv.1)).map (fun b => b.2)
    (kv.1, ⟨pvalNum kv.2, bp.map (fun p => p.1), bp.map (fun p => p.2), none⟩))

/-- One step of the Parameter-to-value conversion loop at the end of
`fit` (source lines 300-302), for one key. -/
def deparamStep (d : Params) (k : String) : Params :=
  match dictGet? d k with
  | some (.lmpar p) => dictSet d k (.num p.value)
  | _ => d

/-- The whole conversion loop: `for k in copy.keys(): if the value is an
lmfit Parameter, replace it by its .value`. -/
def deparamFold (d : Params) : Params :=
  (dictKeysL d).foldl deparamStep d

/-- `BindingCurve.fit(self, system_parameters, to_fit, ycoords,
x_parameter='P', y_parameter='PL', bounds=None)`.  The first component of
the result is the caller's `system_parameters` dict after the call (the
source copies it on line 272 and never writes through the original
reference); the second is the source's return value: `None` with a
diagnostic (modelled as a typed error) on the two validation failures,
else the mutated-and-converted copy paired with the per-parameter
standard-error dict. -/
def fit (sys : BindingSystem) (m : ExtMinimizer) (system_parameters : Params)
    (to_fit : Params) (ycoords : List NumQ) (x_parameter : String)
    (y_parameter : String) (bounds : Option (List (String × (ℚ × ℚ)))) :
    Params × Except FitError (Params × List (String × Option NumQ)) :=
  let y_parameter := y_parameter.toLower
  let system_parameters_copy := system_parameters
  if to_fit.isEmpty then (system_parameters, .error .nothingToFit)
  else
    let missing := fit_missing sys system_parameters_copy to_fit
    if !missing.isEmpty then
      (system_parameters, .error (.missingParameters missing))
    else
      let bounds := bounds.getD []
      let params := fit_initParams to_fit bounds
      let (trials, resultParams) := m.run params
      let system_parameters_copy := trials.foldl
        (fun d trial => (_residual sys trial d to_fit ycoords (some y_parameter)).2)
        system_parameters_copy
      let system_parameters_copy := deparamFold system_parameters_copy
      (system_parameters,
        .ok (system_parameters_copy,
          resultParams.map (fun kp => (kp.1, kp.2.stderr))))

/-! Concrete fixtures used to evaluate the embedded code at specific
inputs. -/

/-- An analytical test system whose query echoes the swept `"l"` sequence. -/
def sysEcho : BindingSystem :=
  ⟨true, ["kdpl", "l", "p"], fun ps => seqValues ps "l", fun ps _ => seqValues ps "l"⟩

/-- A non-analytical test system: its readout-qualified query echoes the
`"l"` sequence for readout `"pl"` and is empty otherwise. -/
def sysKin : BindingSystem :=
  ⟨false, ["kdpl", "l", "p"],
    fun _ => [],
    fun ps r => if r = some "pl" then seqValues ps "l" else []⟩

/-- A minimizer that evaluates the residual once, at the initial
parameters, and returns them as the converged result. -/
def idMinimizer : ExtMinimizer := ⟨fun ps => ([ps], ps)⟩

/-- A parameter mapping with zero sequence-valued entries. -/
def paramsNoSeq : Params :=
  [("p", .num (some 1)), ("l", .num (some 2)), ("kdpl", .num (some 3))]

/-- A parameter mapping with two sequence-valued entries. -/
def paramsTwoSeq : Params :=
  [("p", .arr [some 1, some 2]), ("l", .arr [some 3, some 4]), ("kdpl", .num (some 3))]

/-- A valid sweep whose y-values (under `sysEcho`) are `[-5, 1]`. -/
def paramsSweepNeg : Params :=
  [("l", .arr [some (-5), some 1]), ("p", .num (some 1)), ("kdpl", .num (some 1))]

/-- A valid sweep whose y-values (under `sysEcho`) are `[2, 3]`. -/
def paramsSweepPos : Params :=
  [("l", .arr [some 2, some 3]), ("p", .num (some 1)), ("kdpl", .num (some 1))]

/-! ## C1 -/

/-- The two `add_curve` calls of the C1 evaluation, on a fresh accumulator. -/
def c1_zero_run : AddCurveResult × List _Curve × InstDict :=
  add_curve (some sysEcho) [] freshInstance paramsNoSeq (some "pl") none

/-- The two-sequences variant of the C1 evaluation. -/
def c1_two_run : AddCurveResult × List _Curve × InstDict :=
  add_curve (some sysEcho) [] freshInstance paramsTwoSeq (some "pl") none

/-- C1: the claim fails on the code.  With zero sequence-valued entries
`add_curve` does not fail recoverably: `_find_changing_parameters` returns
`None` and `len(None)` raises `TypeError`.  Moreover `_initialize_plot()`
runs before the validation, so on a fresh accumulator the figure/axes
state is mutated both in the zero-sequence (crash) case and in the
two-sequences (diagnostic-and-return) case. -/
theorem C1_sweep_validation_crashes_and_mutates :
    c1_zero_run.1 = .typeErrorLenNone ∧
    c1_zero_run.2.2 ≠ freshInstance ∧
    c1_zero_run.2.2.figaxes ≠ freshInstance.figaxes ∧
    c1_two_run.1 = .invalidSweep ∧
    c1_two_run.2.2 ≠ freshInstance ∧
    c1_two_run.2.2.figaxes ≠ freshInstance.figaxes := by
  decide

/-! ## C2 -/

/-- First `add_curve` of the C2 evaluation: curve with y-values `[-5, 1]`. -/
def c2_step1 : AddCurveResult × List _Curve × InstDict :=
  add_curve (some sysEcho) [] freshInstance paramsSweepNeg (some "pl") none

/-- Second `add_curve` of the C2 evaluation: curve with y-values `[2, 3]`,
added to the state left by the first call. -/
def c2_step2 : AddCurveResult × List _Curve × InstDict :=
  add_curve (some sysEcho) c2_step1.2.1 c2_step1.2.2 paramsSweepPos (some "pl") none

/-- C2: the claim fails on the code.  After two successful `add_curve`
calls whose curves have minima `-5` and `2`, the accumulator's
`_min_y_axis` is `2`: the source recomputes it as `np.nanmin(y_values)`
of the current curve alone (line 146) instead of merging with the
previously accumulated bound, so the NaN-aware minimum over all curves
added so far (`-5`) is dropped. -/
theorem C2_min_y_axis_not_merged :
    c2_step1.1 = .ok ∧
    c2_step2.1 = .ok ∧
    (curves_view c2_step2.2.1 c2_step2.2.2).map (fun c => nanmin c.ycoords)
      = [some (-5), some 2] ∧
    c2_step2.2.2.v_min_y_axis = some 2 ∧
    c2_step2.2.2.v_min_y_axis
      ≠ nanmin ((curves_view c2_step2.2.1 c2_step2.2.2).map (fun c => nanmin c.ycoords)) := by
  decide

/-! ## C7 -/

/-- One successful `add_curve` on a first, freshly constructed instance;
the shared class-level curve list starts empty.  A second, independent
instance (also fresh) never appears in the call. -/
def c7_run : AddCurveResult × List _Curve × InstDict :=
  add_curve (some sysEcho) [] freshInstance paramsSweepPos (some "pl") none

/-- C7: the claim fails on the code.  `curves` is a class attribute and
`self.curves.append(...)` mutates the one class-level list, so after a
successful `add_curve` on the first instance a second, untouched instance
observes the appended curve through `self.curves` as well.  (The numeric
attributes are rebound through `self.<name> = ...` and therefore stay
per-instance: the second instance's bounds and trace counter still read
the class defaults.) -/
theorem C7_curve_list_shared_between_instances :
    c7_run.1 = .ok ∧
    curves_view c7_run.2.1 freshInstance
      = [⟨[some 2, some 3], [some 2, some 3], ""⟩] ∧
    curves_view c7_run.2.1 freshInstance ≠ curves_view [] freshInstance ∧
    freshInstance.v_num_added_traces = 0 ∧
    freshInstance.v_min_y_axis = some 0 := by
  decide

/-! ## C3 -/

/-- C3: dispatch of the system query.  For an analytical system the
y-values of `add_curve` come from `query(parameters)` and any supplied
readout is ignored (the y-values are the same for every readout); for a
non-analytical system they come from `query(parameters, readout)`; and a
query without a readout — the only form the surviving
`BindingCurve.query` method accepts — fails with the missing-readout
diagnostic on a non-analytical system. -/
theorem C3_query_dispatch (sys : BindingSystem) (ps : Params)
    (r r' : Option String) :
    (sys.analytical = true → add_curve_yvalues sys ps r = sys.queryA ps) ∧
    (sys.analytical = true →
      add_curve_yvalues sys ps r = add_curve_yvalues sys ps r') ∧
    (sys.analytical = false → add_curve_yvalues sys ps r = sys.queryR ps r) ∧
    (sys.analytical = false → query sys ps = .missingReadout) := by
  refine ⟨fun h => ?_, fun h => ?_, fun h => ?_, fun h => ?_⟩ <;>
    simp [add_curve_yvalues, query, h]

/-- Witness for C3 at concrete systems: the analytical echo system
ignores a bogus readout, the kinetic system receives the readout, and the
readout-less `query` method fails on the kinetic system. -/
theorem C3_query_dispatch_witness :
    add_curve_yvalues sysEcho paramsSweepPos (some "bogus") = [some 2, some 3] ∧
    add_curve_yvalues sysEcho paramsSweepPos (some "bogus")
      = add_curve_yvalues sysEcho paramsSweepPos none ∧
    add_curve_yvalues sysKin paramsSweepPos (some "pl") = [some 2, some 3] ∧
    query sysKin paramsSweepPos = .missingReadout := by
  refine ⟨?_, ?_, ?_, ?_⟩
  · exact ((C3_query_dispatch sysEcho paramsSweepPos (some "bogus") none).1 rfl).trans
      (by decide)
  · exact (C3_query_dispatch sysEcho paramsSweepPos (some "bogus") none).2.1 rfl
  · exact ((C3_query_dispatch sysKin paramsSweepPos (some "pl") none).2.2.1 rfl).trans
      (by decide)
  · exact (C3_query_dispatch sysKin paramsSweepPos (some "pl") none).2.2.2 rfl

/-! ## C4 -/

/-- C4: `fit` with an empty `to_fit` dict fails with the nothing-to-fit
diagnostic, for every system, every minimizer and all other arguments,
and the caller's dict is handed back untouched.  Because the result does
not depend on the minimizer `m` at all, the external minimizer is never
invoked. -/
theorem C4_empty_to_fit_nothing_to_fit (sys : BindingSystem)
    (m : ExtMinimizer) (sp : Params) (y : List NumQ) (xp yp : String)
    (b : Option (List (String × (ℚ × ℚ)))) :
    fit sys m sp [] y xp yp b = (sp, .error .nothingToFit) := rfl

/-! ## C10 -/

/-- C10: `fit` never reads its `x_parameter` argument, so two calls that
differ only in `x_parameter` return identical results (same fitted
parameters, same standard errors, same caller state). -/
theorem C10_x_parameter_has_no_effect (sys : BindingSystem)
    (m : ExtMinimizer) (sp tf : Params) (y : List NumQ) (xp1 xp2 yp : String)
    (b : Option (List (String × (ℚ × ℚ)))) :
    fit sys m sp tf y xp1 yp b = fit sys m sp tf y xp2 yp b := rfl

/-! ## C5 -/

/-- Counterexample to C5 as stated: a call in which the union of the keys
of `system_parameters` and `to_fit` (both empty) covers none of the three
required arguments, yet `fit` fails with the nothing-to-fit error, not
with missing-parameters — the empty-`to_fit` check runs first. -/
theorem C5_counterexample_empty_to_fit_wins :
    fit_missing sysEcho [] [] = ["kdpl", "l", "p"] ∧
    fit sysEcho idMinimizer [] [] [] "P" "PL" none = ([], .error .nothingToFit) ∧
    (FitError.nothingToFit ≠ FitError.missingParameters ["kdpl", "l", "p"]) := by
  refine ⟨by decide, rfl, by decide⟩

/-! ## C8 -/

/-- C8: in `show_plot`, when no explicit `max_y` is given the upper y
limit handed to `set_ylim` is the accumulated maximum bound multiplied by
exactly `1.1` (i.e. `11/10`); when `max_y` is given, the upper limit is
exactly that value, with no headroom.  (The hypothesis is that the axes
exist — otherwise the source crashes on `self.axes.set_ylim`.) -/
theorem C8_ymax_headroom (self : InstDict) (opts : ShowOpts) (ax : Axes)
    (hax : self.figaxes = some ax) :
    (opts.max_y = none →
      axesUpperY (show_plot self opts).2 = some (qscale self.v_max_y_axis (11 / 10))) ∧
    (∀ v : ℚ, opts.max_y = some v →
      axesUpperY (show_plot self opts).2 = some (some v)) := by
  rcases self with ⟨fa, f1, f2, f3, f4, f5, f6, f7⟩
  rcases opts with ⟨t, oxl, oyl, omnx, omxx, omny, omxy, olx, oly, olg⟩
  simp only at hax
  subst hax
  constructor
  · intro h
    simp only at h
    subst h
    rcases omnx with _ | v1 <;> rcases omxx with _ | v2 <;> rcases omny with _ | v3 <;>
      simp [show_plot, axesUpperY, InstDict.v_max_y_axis, InstDict.v_min_y_axis,
        InstDict.v_min_x_axis, InstDict.v_max_x_axis]
  · intro v h
    simp only at h
    subst h
    rcases omnx with _ | v1 <;> rcases omxx with _ | v2 <;> rcases omny with _ | v3 <;>
      simp [show_plot, axesUpperY, InstDict.v_max_y_axis, InstDict.v_min_y_axis,
        InstDict.v_min_x_axis, InstDict.v_max_x_axis]

/-- An accumulator whose accumulated maximum y bound is `1`, with
initialized axes. -/
def c8_self : InstDict :=
  ⟨some ⟨[], (some 0, some 1), (some 0, some 1)⟩,
    none, none, none, some (some 1), none, none, none⟩

/-- `show_plot` options with no explicit `max_y`. -/
def c8_optsNone : ShowOpts :=
  ⟨"System simulation", none, none, none, none, none, none, false, false, true⟩

/-- `show_plot` options with explicit `max_y = 7`. -/
def c8_optsSome : ShowOpts :=
  ⟨"System simulation", none, none, none, none, none, some 7, false, false, true⟩

/-- Witness for C8: accumulated maximum `1` yields upper limit `11/10`
without an explicit `max_y`, and exactly `7` with `max_y = 7`. -/
theorem C8_ymax_headroom_witness :
    axesUpperY (show_plot c8_self c8_optsNone).2 = some (some (11 / 10)) ∧
    axesUpperY (show_plot c8_self c8_optsSome).2 = some (some 7) := by
  constructor
  · exact ((C8_ymax_headroom c8_self c8_optsNone
      ⟨[], (some 0, some 1), (some 0, some 1)⟩ rfl).1 rfl).trans
      (by simp [c8_self, qscale, InstDict.v_max_y_axis])
  · exact (C8_ymax_headroom c8_self c8_optsSome
      ⟨[], (some 0, some 1), (some 0, some 1)⟩ rfl).2 7 rfl

/-! ## Dictionary lemmas, used for the residual/fit proofs -/

theorem dictSet_cons_eq {kv : String × PVal} {rest : Params} {k : String}
    {v : PVal} (h : kv.1 = k) : dictSet (kv :: rest) k v = (k, v) :: rest := by
  simp [dictSet, h]

theorem dictSet_cons_ne {kv : String × PVal} {rest : Params} {k : String}
    {v : PVal} (h : ¬ kv.1 = k) :
    dictSet (kv :: rest) k v = kv :: dictSet rest k v := by
  simp [dictSet, h]

theorem dictKeysL_cons (kv : String × PVal) (rest : Params) :
    dictKeysL (kv :: rest) = kv.1 :: dictKeysL rest := rfl

theorem dictKeysL_dictSet_mem {d : Params} {k : String} (v : PVal)
    (h : k ∈ dictKeysL d) : dictKeysL (dictSet d k v) = dictKeysL d := by
  induction d with
  | nil => cases h
  | cons kv rest ih =>
    by_cases hk : kv.1 = k
    · rw [dictSet_cons_eq hk]
      simp [dictKeysL_cons, hk]
    · have h2 : k ∈ dictKeysL rest := by
        rw [dictKeysL_cons] at h
        rcases List.mem_cons.mp h with h3 | h3
        · exact absurd h3.symm hk
        · exact h3
      rw [dictSet_cons_ne hk, dictKeysL_cons, dictKeysL_cons, ih h2]

theorem dictKeysL_dictSet_not_mem {d : Params} {k : String} (v : PVal)
    (h : k ∉ dictKeysL d) : dictSet d k v = d ++ [(k, v)] := by
  induction d with
  | nil => rfl
  | cons kv rest ih =>
    have hk : ¬ kv.1 = k := by
      intro he
      exact h (by simp [dictKeysL, he])
    have h2 : k ∉ dictKeysL rest := by
      intro hm
      refine h ?_
      simp only [dictKeysL, List.map_cons, List.mem_cons]
      exact Or.inr hm
    simp [dictSet, hk, ih h2]

theorem mem_dictKeysL_dictSet_self (d : Params) (k : String) (v : PVal) :
    k ∈ dictKeysL (dictSet d k v) := by
  induction d with
  | nil => simp [dictSet, dictKeysL]
  | cons kv rest ih =>
    by_cases hk : kv.1 = k
    · simp [dictSet, hk, dictKeysL]
    · simp only [dictSet, hk, if_false, dictKeysL, List.map_cons, List.mem_cons]
      exact Or.inr ih

theorem mem_dictKeysL_dictSet_of_mem {d : Params} {k : String} (k0 : String)
    (v : PVal) (h : k ∈ dictKeysL d) : k ∈ dictKeysL (dictSet d k0 v) := by
  by_cases h0 : k0 ∈ dictKeysL d
  · rw [dictKeysL_dictSet_mem v h0]
    exact h
  · rw [dictKeysL_dictSet_not_mem v h0]
    simp only [dictKeysL, List.map_append, List.mem_append]
    exact Or.inl h

theorem nodup_dictKeysL_dictSet {d : Params} (k : String) (v : PVal)
    (h : (dictKeysL d).Nodup) : (dictKeysL (dictSet d k v)).Nodup := by
  by_cases h0 : k ∈ dictKeysL d
  · rw [dictKeysL_dictSet_mem v h0]
    exact h
  · rw [dictKeysL_dictSet_not_mem v h0]
    simp only [dictKeysL, List.map_append]
    simp only [dictKeysL] at h h0
    simp [List.nodup_append, h, h0]

theorem dictSet_dictSet_same (d : Params) (k : String) (v1 v2 : PVal) :
    dictSet (dictSet d k v1) k v2 = dictSet d k v2 := by
  induction d with
  | nil => simp [dictSet]
  | cons kv rest ih =>
    by_cases hk : kv.1 = k
    · simp [dictSet, hk]
    · simp [dictSet, hk, ih]

theorem dictSet_dictSet_comm {d : Params} {k k' : String} (v w : PVal)
    (hmem : k ∈ dictKeysL d) (hne : k ≠ k') :
    dictSet (dictSet d k' w) k v = dictSet (dictSet d k v) k' w := by
  have h3 : ¬ k' = k := fun he => hne he.symm
  induction d with
  | nil => cases hmem
  | cons kv rest ih =>
    by_cases h1 : kv.1 = k'
    · have h2 : ¬ kv.1 = k := by
        rw [h1]
        exact h3
      simp [dictSet, h1, h2, h3]
    · by_cases h2 : kv.1 = k
      · simp [dictSet, h1, h2, hne]
      · have hmem' : k ∈ dictKeysL rest := by
          rw [dictKeysL_cons] at hmem
          rcases List.mem_cons.mp hmem with h4 | h4
          · exact absurd h4.symm h2
          · exact h4
        simp [dictSet, h1, h2, ih hmem']

theorem dictSet_overlayTrial_comm :
    ∀ (t : LmParams) (k : String) (v : PVal), k ∉ t.map Prod.fst →
      ∀ d : Params, k ∈ dictKeysL d →
        dictSet (overlayTrial d t) k v = overlayTrial (dictSet d k v) t := by
  intro t
  induction t with
  | nil => intro k v _ d _; rfl
  | cons kp t' ih =>
    intro k v hnot d hmem
    have hne : k ≠ kp.1 := by
      intro he
      exact hnot (by simp [he])
    have hnot' : k ∉ t'.map Prod.fst := by
      intro hm
      exact hnot (by simp [hm])
    show dictSet (overlayTrial (dictSet d kp.1 (.lmpar kp.2)) t') k v
      = overlayTrial (dictSet (dictSet d k v) kp.1 (.lmpar kp.2)) t'
    rw [ih k v hnot' (dictSet d kp.1 (.lmpar kp.2))
      (mem_dictKeysL_dictSet_of_mem kp.1 _ hmem)]
    rw [dictSet_dictSet_comm v (.lmpar kp.2) hmem hne]

theorem overlayTrial_overlayTrial :
    ∀ (t1 t2 : LmParams), t1.map Prod.fst = t2.map Prod.fst →
      (t2.map Prod.fst).Nodup →
      ∀ d : Params, overlayTrial (overlayTrial d t1) t2 = overlayTrial d t2 := by
  intro t1
  induction t1 with
  | nil =>
    intro t2 hk _ d
    cases t2 with
    | nil => rfl
    | cons kp t2' => simp at hk
  | cons kp1 t1' ih =>
    intro t2 hk hn d
    cases t2 with
    | nil => simp at hk
    | cons kp2 t2' =>
      rcases kp1 with ⟨k1, v1⟩
      rcases kp2 with ⟨k2, v2⟩
      simp only [List.map_cons, List.cons.injEq] at hk
      obtain ⟨hkk, hks⟩ := hk
      subst hkk
      simp only [List.map_cons, List.nodup_cons] at hn
      obtain ⟨hn1, hn2⟩ := hn
      have hnot1 : k1 ∉ t1'.map Prod.fst := by
        rw [hks]
        exact hn1
      show overlayTrial
          (dictSet (overlayTrial (dictSet d k1 (.lmpar v1)) t1') k1 (.lmpar v2)) t2'
        = overlayTrial (dictSet d k1 (.lmpar v2)) t2'
      rw [dictSet_overlayTrial_comm t1' k1 (.lmpar v2) hnot1 _
        (mem_dictKeysL_dictSet_self d k1 (.lmpar v1))]
      rw [dictSet_dictSet_same]
      exact ih t2' hks hn2 (dictSet d k1 (.lmpar v2))

theorem foldl_overlayTrial_getLast (K : List String) :
    ∀ (trials : List LmParams) (tlast : LmParams) (d : Params),
      trials.getLast? = some tlast →
      (∀ t ∈ trials, t.map Prod.fst = K) →
      K.Nodup →
      trials.foldl (fun d t => overlayTrial d t) d = overlayTrial d tlast := by
  intro trials
  induction trials with
  | nil => intro tlast d h _ _; simp at h
  | cons t rest ih =>
    intro tlast d hlast hall hnod
    cases rest with
    | nil =>
      rw [List.getLast?_singleton] at hlast
      cases hlast
      rfl
    | cons t2 rest2 =>
      rw [List.getLast?_cons_cons] at hlast
      have step : (t :: t2 :: rest2).foldl (fun d t => overlayTrial d t) d
          = (t2 :: rest2).foldl (fun d t => overlayTrial d t) (overlayTrial d t) := rfl
      rw [step, ih tlast (overlayTrial d t) hlast
        (fun u hu => hall u (List.mem_cons_of_mem _ hu)) hnod]
      have ht : t.map Prod.fst = K := hall t (List.mem_cons_self _ _)
      have htl : tlast.map Prod.fst = K :=
        hall tlast (List.mem_cons_of_mem _ (List.mem_of_getLast?_eq_some hlast))
      exact overlayTrial_overlayTrial t tlast (ht.trans htl.symm) (htl ▸ hnod) d

/-! ## C9 -/

/-- The state effect of `_residual` is the in-place trial overlay. -/
theorem _residual_snd (sys : BindingSystem) (p : LmParams) (d tf : Params)
    (y : List NumQ) (r : Option String) :
    (_residual sys p d tf y r).2 = overlayTrial d p := rfl

/-- Counterexample to C9 as stated: `_residual` does not work on a copy.
The base-parameters dict it is handed comes back with the trial parameter
written into it (here `kdpl`, appended as an lmfit Parameter object), so
the caller-visible mapping has changed. -/
theorem C9_counterexample_residual_mutates_base :
    (_residual sysEcho [("kdpl", ⟨some 5, none, none, none⟩)]
        [("p", PVal.num (some 1))] [] [] (some "pl")).2
      = [("p", PVal.num (some 1)), ("kdpl", PVal.lmpar ⟨some 5, none, none, none⟩)] ∧
    (_residual sysEcho [("kdpl", ⟨some 5, none, none, none⟩)]
        [("p", PVal.num (some 1))] [] [] (some "pl")).2
      ≠ [("p", PVal.num (some 1))] := by
  decide

/-- C9 (amended): `_residual` overlays the trial values in place onto the
base-parameters dict it is given — mutating it, not a working copy (`fit`
relies on that mutation to read the optimized values back) — queries the
system with the readout exactly when the system is non-analytical, and
returns the elementwise signed difference of prediction and observation.
The returned residual vector is nevertheless a function of the current
inputs only: a preceding call whose trial binds the same parameter names
leaves a later call's entire result unchanged. -/
theorem C9_residual_overlay_in_place (sys : BindingSystem) (t1 t2 : LmParams)
    (d tf : Params) (y : List NumQ) (r : Option String)
    (hk : t1.map Prod.fst = t2.map Prod.fst)
    (hn : (t2.map Prod.fst).Nodup) :
    (_residual sys t2 ((_residual sys t1 d tf y r).2) tf y r
       = _residual sys t2 d tf y r) ∧
    ((_residual sys t1 d tf y r).2 = overlayTrial d t1) ∧
    (sys.analytical = false →
      (_residual sys t1 d tf y r).1 = listSub (sys.queryR (overlayTrial d t1) r) y) ∧
    (sys.analytical = true →
      (_residual sys t1 d tf y r).1 = listSub (sys.queryA (overlayTrial d t1)) y) := by
  refine ⟨?_, rfl, fun h => by simp [_residual, h], fun h => by simp [_residual, h]⟩
  rw [_residual_snd]
  show _residual sys t2 (overlayTrial d t1) tf y r = _residual sys t2 d tf y r
  unfold _residual
  rw [overlayTrial_overlayTrial t1 t2 hk hn d]

/-- Witness for C9: with the same parameter name (`kdpl`) in both trials,
a second `_residual` call on the dict mutated by a first call returns
exactly what it returns on the pristine dict. -/
theorem C9_residual_overlay_in_place_witness :
    _residual sysEcho [("kdpl", ⟨some 6, none, none, none⟩)]
        ((_residual sysEcho [("kdpl", ⟨some 5, none, none, none⟩)]
          [("p", PVal.num (some 1))] [] [] (some "pl")).2) [] [] (some "pl")
      = _residual sysEcho [("kdpl", ⟨some 6, none, none, none⟩)]
          [("p", PVal.num (some 1))] [] [] (some "pl") :=
  (C9_residual_overlay_in_place sysEcho [("kdpl", ⟨some 5, none, none, none⟩)]
    [("kdpl", ⟨some 6, none, none, none⟩)] [("p", PVal.num (some 1))] [] []
    (some "pl") (by decide) (by decide)).1

/-! ## C5 (amended theorem) -/

/-- C5 (amended): for every `fit` call with a NON-EMPTY `to_fit` whose
parameter union leaves required arguments uncovered, `fit` fails with the
missing-parameters diagnostic, reporting exactly the set of omitted
argument names with no duplicates, in sorted order, and the result does
not depend on the minimizer (it is never invoked).  The non-emptiness
hypothesis is forced by the counterexample: the empty-`to_fit` check runs
first and wins. -/
theorem C5_missing_parameters_reported (sys : BindingSystem) (m : ExtMinimizer)
    (sp tf : Params) (y : List NumQ) (xp yp : String)
    (b : Option (List (String × (ℚ × ℚ))))
    (h1 : tf ≠ []) (h2 : fit_missing sys sp tf ≠ []) :
    fit sys m sp tf y xp yp b
      = (sp, .error (.missingParameters (fit_missing sys sp tf))) ∧
    (fit_missing sys sp tf).Sorted (· ≤ ·) ∧
    (fit_missing sys sp tf).Nodup ∧
    ∀ a, a ∈ fit_missing sys sp tf ↔
      (a ∈ sys.arguments ∧ a ∉ dictKeysL sp ∧ a ∉ dictKeysL tf) := by
  refine ⟨?_, ?_, ?_, ?_⟩
  · have he : tf.isEmpty = false := by
      cases tf
      · exact absurd rfl h1
      · rfl
    have hm : (fit_missing sys sp tf).isEmpty = false := by
      cases hmm : fit_missing sys sp tf
      · exact absurd hmm h2
      · rfl
    simp [fit, he, hm]
  · have hs := List.sorted_insertionSort pyStrLeP
      ((sys.arguments.filter
        (fun a => decide (a ∉ dictKeysL sp ++ dictKeysL tf))).dedup)
    exact hs.imp (fun h => (pyStrLe_iff_le _ _).mp h)
  · exact (List.perm_insertionSort pyStrLeP _).nodup_iff.mpr (List.nodup_dedup _)
  · intro a
    simp only [fit_missing, List.mem_insertionSort, List.mem_dedup, List.mem_filter,
      decide_eq_true_eq, List.mem_append, not_or]

/-- Witness for C5's amended theorem: `sysEcho` needs `kdpl`, `l`, `p`;
fitting only `kdpl` with no base parameters reports exactly `l` and `p`,
sorted. -/
theorem C5_missing_parameters_reported_witness :
    fit sysEcho idMinimizer [] [("kdpl", PVal.num (some 5))] [] "P" "PL" none
      = ([], .error (.missingParameters ["l", "p"])) := by
  have h := (C5_missing_parameters_reported sysEcho idMinimizer []
    [("kdpl", PVal.num (some 5))] [] "P" "PL" none (by decide) (by decide)).1
  rw [h]
  rfl

/-! ## C6 -/

/-- True exactly for dict values that are lmfit Parameter objects (the
`type(...) == lmfit.parameter.Parameter` test at the end of `fit`). -/
def PVal.isParamObj : PVal → Bool
  | .lmpar _ => true
  | _ => false

/-- The value conversion performed by the loop at the end of `fit`. -/
def deparamValue : PVal → PVal
  | .lmpar p => .num p.value
  | v => v

/-- Pointwise form of the Parameter-to-value conversion loop. -/
def deparamMap (d : Params) : Params :=
  d.map (fun kv => (kv.1, deparamValue kv.2))

/-- Merging optimized parameter values into a dict: each value is written
under its parameter name as a plain number (the merge the spec's §4.4
step 5 describes). -/
def overlayNums (d : Params) (t : LmParams) : Params :=
  t.foldl (fun d kp => dictSet d kp.1 (.num kp.2.value)) d

theorem dictGet?_cons_eq {kv : String × PVal} {rest : Params} {k : String}
    (h : kv.1 = k) : dictGet? (kv :: rest) k = some kv.2 := by
  unfold dictGet?
  rw [List.find?_cons_of_pos]
  · rfl
  · simp [h]

theorem dictGet?_cons_ne {kv : String × PVal} {rest : Params} {k : String}
    (h : ¬ kv.1 = k) : dictGet? (kv :: rest) k = dictGet? rest k := by
  unfold dictGet?
  rw [List.find?_cons_of_neg]
  simp [h]

theorem deparamStep_cons_ne {kv : String × PVal} {rest : Params} {k : String}
    (h : ¬ kv.1 = k) :
    deparamStep (kv :: rest) k = kv :: deparamStep rest k := by
  unfold deparamStep
  rw [dictGet?_cons_ne h]
  cases hg : dictGet? rest k with
  | none => rfl
  | some v =>
    cases v with
    | num v0 => rfl
    | arr vs => rfl
    | lmpar p =>
      show dictSet (kv :: rest) k (PVal.num p.value)
        = kv :: dictSet rest k (PVal.num p.value)
      rw [dictSet_cons_ne h]

theorem foldl_deparamStep_cons {ks : List String} {kv : String × PVal} :
    ∀ {rest : Params}, (∀ k' ∈ ks, ¬ kv.1 = k') →
      ks.foldl deparamStep (kv :: rest) = kv :: ks.foldl deparamStep rest := by
  induction ks with
  | nil => intro rest _; rfl
  | cons k1 ks' ih =>
    intro rest hall
    have hk1 : ¬ kv.1 = k1 := hall k1 (List.mem_cons_self _ _)
    show ks'.foldl deparamStep (deparamStep (kv :: rest) k1) = _
    rw [deparamStep_cons_ne hk1]
    exact ih (fun k' hk' => hall k' (List.mem_cons_of_mem _ hk'))

theorem deparamFold_eq_deparamMap :
    ∀ d : Params, (dictKeysL d).Nodup → deparamFold d = deparamMap d := by
  intro d
  induction d with
  | nil => intro _; rfl
  | cons kv rest ih =>
    intro hnod
    rcases kv with ⟨k0, v0⟩
    rw [dictKeysL_cons] at hnod
    rcases List.nodup_cons.mp hnod with ⟨hnotin, hnod'⟩
    show (dictKeysL ((k0, v0) :: rest)).foldl deparamStep ((k0, v0) :: rest) = _
    rw [dictKeysL_cons]
    show (dictKeysL rest).foldl deparamStep (deparamStep ((k0, v0) :: rest) k0) = _
    have hget : dictGet? ((k0, v0) :: rest) k0 = some v0 := dictGet?_cons_eq rfl
    have hnotin' : k0 ∉ dictKeysL rest := hnotin
    have hstep : deparamStep ((k0, v0) :: rest) k0
        = (k0, deparamValue v0) :: rest := by
      unfold deparamStep
      rw [hget]
      cases v0 with
      | num w => rfl
      | arr ws => rfl
      | lmpar p =>
        show dictSet ((k0, PVal.lmpar p) :: rest) k0 (PVal.num p.value)
          = (k0, deparamValue (PVal.lmpar p)) :: rest
        rw [dictSet_cons_eq rfl]
        rfl
    rw [hstep,
      @foldl_deparamStep_cons (dictKeysL rest) (k0, deparamValue v0) rest
        (fun k' hk' he => hnotin' ((show k0 = k' from he) ▸ hk'))]
    show (k0, deparamValue v0) :: deparamFold rest = _
    rw [ih hnod']
    rfl

theorem deparamMap_dictSet_lmpar :
    ∀ (d : Params) (k : String) (p : LmParam),
      deparamMap (dictSet d k (.lmpar p))
        = dictSet (deparamMap d) k (.num p.value) := by
  intro d
  induction d with
  | nil => intro k p; rfl
  | cons kv rest ih =>
    intro k p
    by_cases hk : kv.1 = k
    · rw [dictSet_cons_eq hk]
      show (k, PVal.num p.value) :: deparamMap rest = _
      rw [show deparamMap (kv :: rest)
          = (kv.1, deparamValue kv.2) :: deparamMap rest from rfl]
      rw [dictSet_cons_eq (show ((kv.1, deparamValue kv.2)).1 = k from hk)]
    · rw [dictSet_cons_ne hk]
      show (kv.1, deparamValue kv.2) :: deparamMap (dictSet rest k (.lmpar p)) = _
      rw [ih]
      rw [show deparamMap (kv :: rest)
          = (kv.1, deparamValue kv.2) :: deparamMap rest from rfl]
      rw [dictSet_cons_ne (show ¬ ((kv.1, deparamValue kv.2)).1 = k from hk)]

theorem deparamMap_overlayTrial (t : LmParams) :
    ∀ d : Params, deparamMap (overlayTrial d t) = overlayNums (deparamMap d) t := by
  induction t with
  | nil => intro d; rfl
  | cons kp t' ih =>
    intro d
    show deparamMap (overlayTrial (dictSet d kp.1 (.lmpar kp.2)) t')
      = overlayNums (dictSet (deparamMap d) kp.1 (.num kp.2.value)) t'
    rw [ih, deparamMap_dictSet_lmpar]

theorem deparamMap_of_no_param :
    ∀ d : Params, (∀ kv ∈ d, kv.2.isParamObj = false) → deparamMap d = d := by
  intro d
  induction d with
  | nil => intro _; rfl
  | cons kv rest ih =>
    intro h
    have h1 : kv.2.isParamObj = false := h kv (List.mem_cons_self _ _)
    have h2 : deparamValue kv.2 = kv.2 := by
      cases hv : kv.2 with
      | num w => rfl
      | arr ws => rfl
      | lmpar p => rw [hv] at h1; simp [PVal.isParamObj] at h1
    show (kv.1, deparamValue kv.2) :: deparamMap rest = kv :: rest
    rw [h2, ih (fun u hu => h u (List.mem_cons_of_mem _ hu))]

theorem nodup_dictKeysL_overlayTrial (t : LmParams) :
    ∀ d : Params, (dictKeysL d).Nodup → (dictKeysL (overlayTrial d t)).Nodup := by
  induction t with
  | nil => intro d h; exact h
  | cons kp t' ih =>
    intro d h
    exact ih _ (nodup_dictKeysL_dictSet kp.1 _ h)

/-- C6: for every successful `fit` call, the caller's `system_parameters`
dict is handed back unchanged (the first component of the result), and
the returned fitted dict is the caller's dict with the minimizer's
converged values merged in as plain numbers, paired with the
per-parameter standard-error mapping.  The external minimizer is modelled
by the behaviour the source relies on: every residual evaluation binds
exactly the registered parameter names, and the final evaluation is at
the converged parameters (lmfit evaluates the residual at the solution
last, which is how the mutated copy ends up holding the optimized
Parameter objects that the conversion loop then unwraps). -/
theorem C6_fit_copies_and_merges (sys : BindingSystem) (m : ExtMinimizer)
    (sp tf : Params) (y : List NumQ) (xp yp : String)
    (b : Option (List (String × (ℚ × ℚ))))
    (h1 : tf ≠ [])
    (h2 : fit_missing sys sp tf = [])
    (htr : ∀ t ∈ (m.run (fit_initParams tf (b.getD []))).1,
      t.map Prod.fst = dictKeysL tf)
    (hlast : (m.run (fit_initParams tf (b.getD []))).1.getLast?
      = some (m.run (fit_initParams tf (b.getD []))).2)
    (hnodtf : (dictKeysL tf).Nodup)
    (hnodsp : (dictKeysL sp).Nodup)
    (hfree : ∀ kv ∈ sp, kv.2.isParamObj = false) :
    fit sys m sp tf y xp yp b
      = (sp, .ok (overlayNums sp (m.run (fit_initParams tf (b.getD []))).2,
          ((m.run (fit_initParams tf (b.getD []))).2).map
            (fun kp => (kp.1, kp.2.stderr)))) := by
  have he : tf.isEmpty = false := by
    cases tf
    · exact absurd rfl h1
    · rfl
  have hm : (fit_missing sys sp tf).isEmpty = true := by rw [h2]; rfl
  rcases hrun : m.run (fit_initParams tf (b.getD [])) with ⟨trials, rp⟩
  have htr' : ∀ t ∈ trials, t.map Prod.fst = dictKeysL tf := by
    intro t ht
    refine htr t ?_
    rw [hrun]
    exact ht
  have hlast' : trials.getLast? = some rp := by
    have h0 := hlast
    rw [hrun] at h0
    exact h0
  simp only [fit, he, hm, hrun, _residual_snd]
  rw [foldl_overlayTrial_getLast (dictKeysL tf) trials rp sp hlast' htr' hnodtf]
  rw [deparamFold_eq_deparamMap _ (nodup_dictKeysL_overlayTrial rp sp hnodsp)]
  rw [deparamMap_overlayTrial]
  rw [deparamMap_of_no_param sp hfree]
  simp

/-- Base parameters for the C6 witness. -/
def c6_sp : Params := [("p", PVal.num (some 1)), ("l", PVal.num (some 2))]

/-- Parameters to fit for the C6 witness. -/
def c6_tf : Params := [("kdpl", PVal.num (some 5))]

/-- Witness for C6 at concrete inputs: the caller's dict comes back
unchanged and the returned dict is the caller's dict with the converged
`kdpl` merged in, alongside its (unavailable) standard error. -/
theorem C6_fit_copies_and_merges_witness :
    fit sysEcho idMinimizer c6_sp c6_tf [] "P" "PL" none
      = (c6_sp, .ok
          ([("p", PVal.num (some 1)), ("l", PVal.num (some 2)),
            ("kdpl", PVal.num (some 5))],
           [("kdpl", none)])) := by
  have h := C6_fit_copies_and_merges sysEcho idMinimizer c6_sp c6_tf [] "P" "PL"
    none (by decide) (by decide) (by decide) (by decide) (by decide) (by decide)
    (by decide)
  rw [h]
  rfl

end PyBindingCurve
